import Mathlib

/-!
Verification development for the OKCoin.cn API client (src/okcoin.js).

The client is shallowly embedded: a JS object used as a parameter map
becomes an association list `List (String × String)` with distinct keys in
insertion order; JS property assignment becomes `setKey` (replace the value
in place if the key exists, append otherwise); the md5 digest primitive is
an external collaborator, so it is a function parameter `md5 : String → String`;
likewise JSON parsing is a parameter `parse : String → Option Payload`.
-/

namespace OKCoinAPI

/-- A JS parameter object: keys with string values, in insertion order. -/
abbrev ParameterSet := List (String × String)

/-- The keys of a parameter object, in insertion order. -/
def keys (l : ParameterSet) : List String := l.map Prod.fst

/-- JS property assignment `obj[k] = v`: overwrite in place, or append. -/
def setKey : ParameterSet → String → String → ParameterSet
  | [], k, v => [(k, v)]
  | (k', v') :: t, k, v =>
      if k' = k then (k, v) :: t else (k', v') :: setKey t k v

/-- A JS scalar value as passed to endpoint methods. -/
inductive JSVal where
  | vStr : String → JSVal
  | vNum : Int → JSVal
  | vNull : JSVal
deriving DecidableEq, Repr

/-- JS truthiness of a scalar: `""`, `0` and `null` are falsy. -/
def JSVal.truthy : JSVal → Bool
  | .vStr s => s ≠ ""
  | .vNum n => n ≠ 0
  | .vNull => false

/-- JS string coercion of a scalar (as produced by `+` concatenation). -/
def JSVal.toStr : JSVal → String
  | .vStr s => s
  | .vNum n => toString n
  | .vNull => "null"

/-- The resolved client configuration captured by the `OKCoin` closure. -/
structure Config where
  url : String
  version : String
  api_key : String
  secret : String
deriving DecidableEq, Repr

/-- The optional `settings` argument of the constructor: any subset of the
configuration keys may be present. -/
structure Settings where
  url : Option String
  version : Option String
  api_key : Option String
  secret : Option String
deriving DecidableEq, Repr

/-- The `OKCoin(api_key, secret, settings)` constructor's configuration:
`_.defaults(settings || {}, {url, version, api_key, secret})` — keys present
in `settings` win over both the built-in defaults and the positional
`api_key`/`secret` arguments. -/
def OKCoin (api_key secret : String) (settings : Option Settings) : Config :=
  let s := settings.getD { url := none, version := none, api_key := none, secret := none }
  { url := s.url.getD "https://www.okcoin.cn/api"
    version := s.version.getD "v1"
    api_key := s.api_key.getD api_key
    secret := s.secret.getD secret }

/-- `arr.sort()` on the key array: ascending lexicographic order. -/
def sortKeys (ks : List String) : List String :=
  List.insertionSort (fun a b => a ≤ b) ks

/-- JS property read `obj[k]` for a key gathered from `obj` itself
(string-coerced; an absent key would read as `undefined`). -/
def getValue (obj : ParameterSet) (k : String) : String :=
  (obj.lookup k).getD "undefined"

/-- The accumulation loop of `stringifyToOKCoinFormat`: walk the sorted key
array, prefixing `&` before every element except the first. -/
def stringifyLoop (obj : ParameterSet) : List String → Bool → String
  | [], _ => ""
  | k :: rest, isFirst =>
      (if isFirst then "" else "&") ++ k ++ "=" ++ getValue obj k ++
        stringifyLoop obj rest false

/-- `stringifyToOKCoinFormat(obj)`: gather the own keys, sort them, then
join `key=value` pairs with `&`. -/
def stringifyToOKCoinFormat (obj : ParameterSet) : String :=
  stringifyLoop obj (sortKeys (keys obj)) true

/-- Spec-side canonicalizer, following the spec's words: sort all keys in
ascending order, join each `key=value` pair with `&`, with no leading or
trailing separator; empty set gives the empty string. Compared against
`stringifyToOKCoinFormat` for the refinement claim. -/
def joinAmp : List String → String
  | [] => ""
  | [x] => x
  | x :: y :: t => x ++ "&" ++ joinAmp (y :: t)

/-- Spec-side canonical string (see `joinAmp`). -/
def canonicalSpec (obj : ParameterSet) : String :=
  joinAmp ((sortKeys (keys obj)).map (fun k => k ++ "=" ++ getValue obj k))

/-- `getMessageSignature(params)`: md5 of the canonical string followed by
`&secret_key=` and the secret, uppercased. `md5` is the external digest. -/
def getMessageSignature (md5 : String → String) (config : Config)
    (params : ParameterSet) : String :=
  (md5 (stringifyToOKCoinFormat params ++ "&secret_key=" ++ config.secret)).toUpper

/-- The request handed to the transport collaborator. -/
structure HttpRequest where
  url : String
  method : String
  form : Option ParameterSet
deriving DecidableEq, Repr

/-- `publicMethod(path, callback)`: GET with no params. -/
def publicMethod (config : Config) (path : String) : HttpRequest :=
  { url := config.url ++ path, method := "GET", form := none }

/-- `privateMethod(path, params, callback)`: set `api_key` on the params,
then compute and set `sign` (on the params that already hold `api_key` but
not yet `sign`), then POST the result. -/
def privateMethod (md5 : String → String) (config : Config) (path : String)
    (params : ParameterSet) : HttpRequest :=
  let params1 := setKey params "api_key" config.api_key
  let params2 := setKey params1 "sign" (getMessageSignature md5 config params1)
  { url := config.url ++ path, method := "POST", form := some params2 }

/-- The form body of a request (empty for a GET). -/
def formOf (r : HttpRequest) : ParameterSet := r.form.getD []

/-- `userinfo(callback)`. -/
def userinfo (md5 : String → String) (config : Config) : HttpRequest :=
  privateMethod md5 config ("/" ++ config.version ++ "/userinfo.do") []

/-- `trade(symbol, type, price, amount, callback)`: start from `{}`, set
`amount` only if truthy, then `price` only if truthy, then `symbol` and
`type` unconditionally. -/
def trade (md5 : String → String) (config : Config)
    (symbol type price amount : JSVal) : HttpRequest :=
  let params0 : ParameterSet := []
  let params1 := if amount.truthy then setKey params0 "amount" amount.toStr else params0
  let params2 := if price.truthy then setKey params1 "price" price.toStr else params1
  let params3 := setKey params2 "symbol" symbol.toStr
  let params4 := setKey params3 "type" type.toStr
  privateMethod md5 config ("/" ++ config.version ++ "/trade.do") params4

/-- `cancel_order(order_id, symbol, callback)`. -/
def cancel_order (md5 : String → String) (config : Config)
    (order_id symbol : String) : HttpRequest :=
  privateMethod md5 config ("/" ++ config.version ++ "/cancel_order.do")
    [("order_id", order_id), ("symbol", symbol)]

/-- `order_info(order_id, symbol, callback)`. -/
def order_info (md5 : String → String) (config : Config)
    (order_id symbol : String) : HttpRequest :=
  privateMethod md5 config ("/" ++ config.version ++ "/order_info.do")
    [("order_id", order_id), ("symbol", symbol)]

/-- The `orders_id` argument of `orders_info`: either an array of
identifiers or a single string. -/
inductive OrdersId where
  | arr : List String → OrdersId
  | str : String → OrdersId
deriving DecidableEq, Repr

/-- `orders_info(orders_id, symbol, callback)`: an array argument is first
flattened with `orders_id.join(",")`. -/
def orders_info (md5 : String → String) (config : Config)
    (orders_id : OrdersId) (symbol : String) : HttpRequest :=
  let oid := match orders_id with
    | .arr l => String.intercalate "," l
    | .str s => s
  privateMethod md5 config ("/" ++ config.version ++ "/orders_info.do")
    [("order_id", oid), ("symbol", symbol)]

/-- `order_history(symbol, status, page, pagesize, callback)`. -/
def order_history (md5 : String → String) (config : Config)
    (symbol status page pagesize : String) : HttpRequest :=
  privateMethod md5 config ("/" ++ config.version ++ "/order_history.do")
    [("current_page", page), ("symbol", symbol), ("status", status),
     ("page_length", pagesize)]

/-- The static `error_codes` catalog. -/
def error_codes : List (Int × String) :=
  [(10000, "Required parameter can not be null"),
   (10001, "Requests are too frequent"),
   (10002, "System Error"),
   (10003, "Restricted list request, please try again later"),
   (10004, "IP restriction"),
   (10005, "Key does not exist"),
   (10006, "User does not exist"),
   (10007, "Signatures do not match"),
   (10008, "Illegal parameter"),
   (10009, "Order does not exist"),
   (10010, "Insufficient balance"),
   (10011, "Order is less than minimum trade amount"),
   (10012, "Unsupported symbol (not btc_cny or ltc_cny)"),
   (10013, "This interface only accepts https requests"),
   (10014, "Order price must be between 0 and 1,000,000"),
   (10015, "Order price differs from current market price too much"),
   (10016, "Insufficient coins balance"),
   (10017, "API authorization error"),
   (10026, "Loan (including reserved loan) and margin cannot be withdrawn"),
   (10027, "Cannot withdraw within 24 hrs of authentication information modification"),
   (10028, "Withdrawal amount exceeds daily limit"),
   (10029, "Account has unpaid loan, please cancel/pay off the loan before withdraw"),
   (10031, "Deposits can only be withdrawn after 6 confirmations"),
   (10032, "Please enabled phone/google authenticator"),
   (10033, "Fee higher than maximum network transaction fee"),
   (10034, "Fee lower than minimum network transaction fee"),
   (10035, "Insufficient BTC/LTC"),
   (10036, "Withdrawal amount too low"),
   (10037, "Trade password not set"),
   (10040, "Withdrawal cancellation fails"),
   (10041, "Withdrawal address not approved"),
   (10042, "Admin password error"),
   (10100, "User account frozen"),
   (10216, "Non-available API"),
   (503, "Too many requests (Http)")]

/-- The API-level error object `{code, error}` delivered to the callback;
`error` is `none` when the JS property read produced `undefined`. -/
structure ApiErr where
  code : Int
  error : Option String
deriving DecidableEq, Repr

/-- `error_code_meaning(error_code)`: a fallback message is computed into
the local `msg`, but the returned object carries only the raw catalog
lookup (`undefined` for a code absent from the catalog). -/
def error_code_meaning (error_code : Int) : ApiErr :=
  let msg := (error_codes.lookup error_code).getD
      ("OKCoin error code :" ++ toString error_code ++
        " is not yet supported by the API")
  { code := error_code, error := error_codes.lookup error_code }

/-- A parsed JSON response body: the `error_code` field (absent, or a
number) and the rest of the payload. -/
structure Payload where
  error_code : Option Int
  rest : List (String × String)
deriving DecidableEq, Repr

/-- JS truthiness of the `error_code` property: absent (`undefined`) and
`0` are falsy. -/
def truthyCode : Option Int → Bool
  | none => false
  | some n => n ≠ 0

/-- The `error` argument the completion callback can receive: a generic
`Error` (transport or parse failure) or the API error object. -/
inductive CbErr where
  | genericError : String → CbErr
  | apiError : ApiErr → CbErr
deriving DecidableEq, Repr

/-- A successful `JSON.parse` result. JSON `null` is valid JSON and is the
one parse result on which the subsequent `data.error_code` property read
throws (reading a property of `null` is a TypeError); every other JSON
value — object, array, string, number, boolean — supports the read, the
non-objects simply yielding `undefined`, and is a `jsValue` whose
`error_code` field is `none` when absent. -/
inductive ParsedJson where
  | jsNull : ParsedJson
  | jsValue : Payload → ParsedJson
deriving DecidableEq, Repr

/-- What the completion handler does after the transport result comes
back: either it calls the callback once with an `(error, data)` pair, or
it throws an uncaught TypeError (the `data.error_code` read on a parsed
`null` body sits outside the `try`/`catch`, which guards only the
`JSON.parse` call) and the callback is never invoked. -/
inductive HandlerOutcome where
  | delivered : Option CbErr → Option Payload → HandlerOutcome
  | typeError : HandlerOutcome
deriving DecidableEq, Repr

/-- The response classification inside `okcoinRequest`'s completion
handler: a transport failure (whose stringified detail is `e`)
short-circuits before parsing; then a parse failure reports the raw body;
then a body parsed to JSON `null` throws on the `error_code` read and
delivers nothing; then a truthy `error_code` yields the API error object;
otherwise the parsed payload is the success value. -/
def okcoinClassify (parse : String → Option ParsedJson)
    (error : Option String) (body : String) : HandlerOutcome :=
  match error with
  | some e =>
      .delivered (some (.genericError ("Error in server response: " ++ e))) none
  | none =>
    match parse body with
    | none =>
        .delivered
          (some (.genericError ("Could not understand response from server: " ++ body)))
          none
    | some .jsNull => .typeError
    | some (.jsValue data) =>
        if truthyCode data.error_code then
          .delivered (some (.apiError (error_code_meaning (data.error_code.getD 0)))) none
        else
          .delivered none (some data)

/-- The completion handler of `okcoinRequest`, including the
`typeof callback === 'function'` guard: when the callback is not a
function, nothing at all is delivered. -/
def okcoinResponseHandler (callbackIsFunction : Bool)
    (parse : String → Option ParsedJson) (error : Option String)
    (body : String) : Option HandlerOutcome :=
  if callbackIsFunction then some (okcoinClassify parse error body) else none

/-! ### Helper lemmas about `setKey`, `lookup` and the canonicalizer -/

theorem keys_nil : keys [] = [] := rfl

theorem keys_cons (k v : String) (l : ParameterSet) :
    keys ((k, v) :: l) = k :: keys l := rfl

theorem lookup_setKey_self (l : ParameterSet) (k v : String) :
    (setKey l k v).lookup k = some v := by
  induction l with
  | nil => simp [setKey, List.lookup]
  | cons hd tl ih =>
    obtain ⟨k', v'⟩ := hd
    by_cases h : k' = k
    · subst h
      simp [setKey, List.lookup]
    · have hb : (k == k') = false := beq_eq_false_iff_ne.mpr (Ne.symm h)
      simp [setKey, h, List.lookup, hb, ih]

theorem lookup_setKey_ne (l : ParameterSet) {a k : String} (v : String)
    (h : a ≠ k) : (setKey l k v).lookup a = l.lookup a := by
  have hb : (a == k) = false := beq_eq_false_iff_ne.mpr h
  induction l with
  | nil => simp [setKey, List.lookup, hb]
  | cons hd tl ih =>
    obtain ⟨k', v'⟩ := hd
    by_cases hk : k' = k
    · subst hk
      simp [setKey, List.lookup, hb]
    · by_cases ha : a = k'
      · subst ha
        simp [setKey, hk, List.lookup]
      · have hb' : (a == k') = false := beq_eq_false_iff_ne.mpr ha
        simp [setKey, hk, List.lookup, hb', ih]

theorem setKey_cons_eq (t : ParameterSet) (k v v' : String) :
    setKey ((k, v') :: t) k v = (k, v) :: t := by
  simp [setKey]

theorem setKey_cons_ne (t : ParameterSet) {k' k : String} (v' v : String)
    (h : k' ≠ k) : setKey ((k', v') :: t) k v = (k', v') :: setKey t k v := by
  simp [setKey, h]

theorem mem_keys_setKey (l : ParameterSet) (a k v : String) :
    a ∈ keys (setKey l k v) ↔ a ∈ keys l ∨ a = k := by
  induction l with
  | nil => simp [setKey, keys_cons, keys_nil]
  | cons hd tl ih =>
    obtain ⟨k', v'⟩ := hd
    by_cases h : k' = k
    · subst h
      rw [setKey_cons_eq, keys_cons, keys_cons]
      simp only [List.mem_cons]
      tauto
    · rw [setKey_cons_ne tl v' v h, keys_cons, keys_cons]
      simp only [List.mem_cons, ih]
      tauto

theorem lookup_eq_none_of_not_mem {l : ParameterSet} {k : String}
    (h : k ∉ keys l) : l.lookup k = none := by
  induction l with
  | nil => simp [List.lookup]
  | cons hd tl ih =>
    obtain ⟨k', v'⟩ := hd
    rw [keys_cons, List.mem_cons] at h
    push_neg at h
    have hb : (k == k') = false := beq_eq_false_iff_ne.mpr h.1
    simp [List.lookup, hb, ih h.2]

theorem mem_of_lookup_eq_some {l : ParameterSet} {k v : String}
    (h : l.lookup k = some v) : (k, v) ∈ l := by
  induction l with
  | nil => simp [List.lookup] at h
  | cons hd tl ih =>
    obtain ⟨k', v'⟩ := hd
    by_cases hk : k = k'
    · subst hk
      simp [List.lookup] at h
      simp [h]
    · have hb : (k == k') = false := beq_eq_false_iff_ne.mpr hk
      simp [List.lookup, hb] at h
      simp [ih h]

theorem lookup_eq_some_of_mem {l : ParameterSet} {k v : String}
    (h : (k, v) ∈ l) (nd : (keys l).Nodup) : l.lookup k = some v := by
  induction l with
  | nil => simp at h
  | cons hd tl ih =>
    obtain ⟨k', v'⟩ := hd
    rw [keys_cons, List.nodup_cons] at nd
    rcases List.mem_cons.mp h with h1 | h2
    · obtain ⟨rfl, rfl⟩ := Prod.mk.injEq .. ▸ h1
      simp [List.lookup]
    · have hk : k ≠ k' := by
        rintro rfl
        exact nd.1 (List.mem_map_of_mem Prod.fst h2)
      have hb : (k == k') = false := beq_eq_false_iff_ne.mpr hk
      simp [List.lookup, hb, ih h2 nd.2]

theorem stringifyLoop_false (obj : ParameterSet) (k : String)
    (rest : List String) :
    stringifyLoop obj (k :: rest) false = "&" ++ stringifyLoop obj (k :: rest) true := rfl

theorem stringifyLoop_eq_joinAmp (obj : ParameterSet) :
    ∀ ks : List String,
      stringifyLoop obj ks true =
        joinAmp (ks.map (fun k => k ++ "=" ++ getValue obj k)) := by
  intro ks
  match ks with
  | [] => rfl
  | [k] =>
    show (("" ++ k ++ "=" ++ getValue obj k) ++ "") = k ++ "=" ++ getValue obj k
    rw [String.append_empty]
    rfl
  | a :: b :: t =>
    have ih := stringifyLoop_eq_joinAmp obj (b :: t)
    show ("" ++ a ++ "=" ++ getValue obj a) ++ stringifyLoop obj (b :: t) false =
      (a ++ "=" ++ getValue obj a) ++ "&" ++
        joinAmp ((b :: t).map (fun k => k ++ "=" ++ getValue obj k))
    rw [stringifyLoop_false, ih]
    simp [String.append_assoc]

theorem stringifyLoop_congr {obj₁ obj₂ : ParameterSet}
    (h : ∀ k, getValue obj₁ k = getValue obj₂ k) :
    ∀ (ks : List String) (b : Bool),
      stringifyLoop obj₁ ks b = stringifyLoop obj₂ ks b := by
  intro ks
  induction ks with
  | nil => intro b; rfl
  | cons k rest ih =>
    intro b
    show _ ++ stringifyLoop obj₁ rest false = _ ++ stringifyLoop obj₂ rest false
    rw [h k, ih false]

theorem sortKeys_sorted (ks : List String) :
    (sortKeys ks).Sorted (fun a b => a ≤ b) :=
  List.sorted_insertionSort _ ks

theorem sortKeys_perm (ks : List String) : (sortKeys ks).Perm ks :=
  List.perm_insertionSort _ ks

theorem sortKeys_eq_of_perm {ks₁ ks₂ : List String} (h : ks₁.Perm ks₂) :
    sortKeys ks₁ = sortKeys ks₂ :=
  List.eq_of_perm_of_sorted
    ((sortKeys_perm ks₁).trans (h.trans (sortKeys_perm ks₂).symm))
    (sortKeys_sorted ks₁) (sortKeys_sorted ks₂)

theorem lookup_of_perm {l₁ l₂ : ParameterSet} (hp : l₁.Perm l₂)
    (nd : (keys l₁).Nodup) (k : String) : l₁.lookup k = l₂.lookup k := by
  have hkp : (keys l₁).Perm (keys l₂) := hp.map Prod.fst
  have nd₂ : (keys l₂).Nodup := hkp.nodup nd
  cases h : l₁.lookup k with
  | none =>
    have hk1 : k ∉ keys l₁ := by
      intro hm
      obtain ⟨⟨a, b⟩, hab, hfst⟩ := List.mem_map.mp hm
      subst hfst
      have := lookup_eq_some_of_mem hab nd
      simp [h] at this
    have hk2 : k ∉ keys l₂ := fun hm => hk1 (hkp.mem_iff.mpr hm)
    exact (lookup_eq_none_of_not_mem hk2).symm
  | some v =>
    have hm : (k, v) ∈ l₂ := hp.subset (mem_of_lookup_eq_some h)
    exact (lookup_eq_some_of_mem hm nd₂).symm

/-! ### Claim theorems -/

/-- C3: the canonical string is formed by sorting all keys ascending and
joining `key=value` pairs with `&`, with no leading or trailing separator,
values taken verbatim; the empty ParameterSet canonicalizes to the empty
string. -/
theorem C3_canonical_sorted_join (obj : ParameterSet) :
    stringifyToOKCoinFormat obj = canonicalSpec obj ∧
    (sortKeys (keys obj)).Sorted (fun a b => a ≤ b) ∧
    stringifyToOKCoinFormat ([] : ParameterSet) = "" :=
  ⟨stringifyLoop_eq_joinAmp obj _, sortKeys_sorted _, rfl⟩

/-- C8: canonicalization is insertion-order independent — permuting a
ParameterSet with distinct keys leaves the canonical string, and hence the
signature for a fixed secret and digest, unchanged. -/
theorem C8_canonicalization_order_independent (md5 : String → String)
    (config : Config) {l₁ l₂ : ParameterSet} (hp : l₁.Perm l₂)
    (nd : (keys l₁).Nodup) :
    stringifyToOKCoinFormat l₁ = stringifyToOKCoinFormat l₂ ∧
    getMessageSignature md5 config l₁ = getMessageSignature md5 config l₂ := by
  have hkeys : sortKeys (keys l₁) = sortKeys (keys l₂) :=
    sortKeys_eq_of_perm (hp.map Prod.fst)
  have hval : ∀ k, getValue l₁ k = getValue l₂ k := fun k => by
    unfold getValue
    rw [lookup_of_perm hp nd k]
  have h1 : stringifyToOKCoinFormat l₁ = stringifyToOKCoinFormat l₂ := by
    unfold stringifyToOKCoinFormat
    rw [hkeys, stringifyLoop_congr hval]
  refine ⟨h1, ?_⟩
  unfold getMessageSignature
  rw [h1]

/-- Witness for C8 at a concrete two-key permutation. -/
theorem C8_witness :
    stringifyToOKCoinFormat [("b", "2"), ("a", "1")] =
      stringifyToOKCoinFormat [("a", "1"), ("b", "2")] ∧
    getMessageSignature (fun s => s) ⟨"u", "v1", "K", "SEC"⟩ [("b", "2"), ("a", "1")] =
      getMessageSignature (fun s => s) ⟨"u", "v1", "K", "SEC"⟩ [("a", "1"), ("b", "2")] :=
  C8_canonicalization_order_independent (fun s => s) ⟨"u", "v1", "K", "SEC"⟩
    (by decide) (by decide)

/-- C2: the signature injected by `privateMethod` is the uppercased digest
of the canonical string of the parameters with `api_key` already set,
followed by `&secret_key=` and the secret; the `sign` key is absent from
the ParameterSet the digest is computed over. -/
theorem C2_sign_excluded_from_signature (md5 : String → String)
    (config : Config) (path : String) (params : ParameterSet)
    (h : "sign" ∉ keys params) :
    (formOf (privateMethod md5 config path params)).lookup "sign" =
      some ((md5 (stringifyToOKCoinFormat (setKey params "api_key" config.api_key) ++
        "&secret_key=" ++ config.secret)).toUpper) ∧
    "sign" ∉ keys (setKey params "api_key" config.api_key) := by
  constructor
  · show (setKey (setKey params "api_key" config.api_key) "sign"
      (getMessageSignature md5 config (setKey params "api_key" config.api_key))).lookup "sign" = _
    rw [lookup_setKey_self]
    rfl
  · intro hm
    rcases (mem_keys_setKey params "sign" "api_key" config.api_key).mp hm with h1 | h2
    · exact h h1
    · exact absurd h2 (by decide)

/-- Witness for C2 at a concrete one-parameter request. -/
theorem C2_witness :
    (formOf (privateMethod (fun s => s) ⟨"u", "v1", "KEY", "SECRET"⟩ "/p"
        [("symbol", "btc_cny")])).lookup "sign" =
      some (((fun s : String => s)
        (stringifyToOKCoinFormat (setKey [("symbol", "btc_cny")] "api_key" "KEY") ++
          "&secret_key=" ++ "SECRET")).toUpper) ∧
    "sign" ∉ keys (setKey [("symbol", "btc_cny")] "api_key" "KEY") :=
  C2_sign_excluded_from_signature (fun s => s) ⟨"u", "v1", "KEY", "SECRET"⟩ "/p"
    [("symbol", "btc_cny")] (by decide)

/-- C6: `orders_info` with an array of identifiers sends the same
`order_id` value — indeed the same whole request — as `orders_info` with
the comma-joined string of those identifiers. -/
theorem C6_orders_info_flattening (md5 : String → String) (config : Config)
    (ids : List String) (symbol : String) :
    (formOf (orders_info md5 config (.arr ids) symbol)).lookup "order_id" =
      (formOf (orders_info md5 config (.str (String.intercalate "," ids)) symbol)).lookup "order_id" ∧
    orders_info md5 config (.arr ids) symbol =
      orders_info md5 config (.str (String.intercalate "," ids)) symbol :=
  ⟨rfl, rfl⟩

/-- C7: in the ParameterSet sent by `trade`, the keys `amount` and `price`
are present exactly when the corresponding argument is truthy, while
`symbol` and `type` are always present. -/
theorem C7_trade_optional_params (md5 : String → String) (config : Config)
    (symbol type price amount : JSVal) :
    ("amount" ∈ keys (formOf (trade md5 config symbol type price amount)) ↔
      amount.truthy = true) ∧
    ("price" ∈ keys (formOf (trade md5 config symbol type price amount)) ↔
      price.truthy = true) ∧
    "symbol" ∈ keys (formOf (trade md5 config symbol type price amount)) ∧
    "type" ∈ keys (formOf (trade md5 config symbol type price amount)) := by
  by_cases ha : amount.truthy <;> by_cases hp : price.truthy <;>
    simp [trade, privateMethod, formOf, ha, hp, mem_keys_setKey, setKey,
      keys_cons, keys_nil]

/-- C1: evaluation of the classifier at the unknown code 99999. The claim
says the delivered error's message indicates the code is unsupported; the
code computes that fallback message only into the dead local `msg` and
delivers `{code: 99999, error: undefined}` — no message at all — while
still delivering no success payload. -/
theorem C1_unknown_code_delivers_no_message :
    error_code_meaning 99999 = { code := 99999, error := none } ∧
    okcoinClassify (fun _ => some (.jsValue ⟨some 99999, []⟩)) none "\x7b\x7d" =
      .delivered (some (.apiError { code := 99999, error := none })) none ∧
    (error_codes.lookup 99999).isNone = true := by
  refine ⟨?_, ?_, ?_⟩ <;> rfl

/-- C4 counterexample: at the valid-JSON body `null` with no transport
failure, the handler reaches neither an ApiError nor a success delivery —
it throws on the `error_code` read — refuting the claimed four-branch
classification, whose last branch promises a delivered success here. -/
theorem C4_counterexample :
    okcoinClassify (fun _ => some .jsNull) none "null" = .typeError ∧
    ∀ (err : Option CbErr) (data : Option Payload),
      okcoinClassify (fun _ => some .jsNull) none "null" ≠ .delivered err data := by
  refine ⟨rfl, ?_⟩
  intro err data h
  rw [show okcoinClassify (fun _ => some .jsNull) none "null" = .typeError from rfl] at h
  exact absurd h (by simp)

/-- C4 as amended: responses are classified in a fixed order with terminal
branches: a transport failure yields the transport error without the body
ever being parsed (the outcome does not depend on the parser or the body);
otherwise a parse failure yields the parse error carrying the raw body;
otherwise a body parsed to JSON `null` makes the handler throw an uncaught
TypeError on the `error_code` read, delivering nothing; otherwise a truthy
`error_code` yields the API error; otherwise the parsed payload is
delivered as the success value. -/
theorem C4_classification_order (parse parse₂ : String → Option ParsedJson)
    (e body body₂ : String) (d : Payload) :
    okcoinClassify parse (some e) body =
      .delivered (some (.genericError ("Error in server response: " ++ e))) none ∧
    okcoinClassify parse₂ (some e) body₂ = okcoinClassify parse (some e) body ∧
    (parse body = none →
      okcoinClassify parse none body =
        .delivered
          (some (.genericError ("Could not understand response from server: " ++ body)))
          none) ∧
    (parse body = some .jsNull →
      okcoinClassify parse none body = .typeError) ∧
    (parse body = some (.jsValue d) → truthyCode d.error_code = true →
      okcoinClassify parse none body =
        .delivered (some (.apiError (error_code_meaning (d.error_code.getD 0)))) none) ∧
    (parse body = some (.jsValue d) → truthyCode d.error_code = false →
      okcoinClassify parse none body = .delivered none (some d)) := by
  refine ⟨rfl, rfl, ?_, ?_, ?_, ?_⟩
  · intro h
    simp [okcoinClassify, h]
  · intro h
    simp [okcoinClassify, h]
  · intro h ht
    simp [okcoinClassify, h, ht]
  · intro h ht
    simp [okcoinClassify, h, ht]

/-- Witness for C4: one concrete response per branch. -/
theorem C4_witness :
    okcoinClassify (fun _ => none) (some "ECONNREFUSED") "b" =
      .delivered (some (.genericError ("Error in server response: " ++ "ECONNREFUSED")))
        none ∧
    okcoinClassify (fun _ => none) none "nonjson" =
      .delivered
        (some (.genericError ("Could not understand response from server: " ++ "nonjson")))
        none ∧
    okcoinClassify (fun _ => some .jsNull) none "null" = .typeError ∧
    okcoinClassify (fun _ => some (.jsValue ⟨some 10007, []⟩)) none "\x7b\x7d" =
      .delivered (some (.apiError (error_code_meaning ((some (10007 : Int)).getD 0))))
        none ∧
    okcoinClassify (fun _ => some (.jsValue ⟨none, []⟩)) none "\x7b\x7d" =
      .delivered none (some ⟨none, []⟩) :=
  ⟨(C4_classification_order (fun _ => none) (fun _ => none) "ECONNREFUSED" "b" "b"
      ⟨none, []⟩).1,
   (C4_classification_order (fun _ => none) (fun _ => none) "e" "nonjson" "x"
      ⟨none, []⟩).2.2.1 rfl,
   (C4_classification_order (fun _ => some .jsNull) (fun _ => none) "e" "null" "x"
      ⟨none, []⟩).2.2.2.1 rfl,
   (C4_classification_order (fun _ => some (.jsValue ⟨some 10007, []⟩)) (fun _ => none)
      "e" "\x7b\x7d" "x" ⟨some 10007, []⟩).2.2.2.2.1 rfl (by decide),
   (C4_classification_order (fun _ => some (.jsValue ⟨none, []⟩)) (fun _ => none) "e"
      "\x7b\x7d" "x" ⟨none, []⟩).2.2.2.2.2 rfl (by decide)⟩

/-- C5 counterexample: with a function callback and the valid-JSON body
`null`, the handler throws before any `callback.call` — neither a success
payload nor a classified error is delivered, refuting the claimed
never-neither invariant at a concrete input. -/
theorem C5_counterexample :
    okcoinResponseHandler true (fun _ => some ParsedJson.jsNull) none "null" =
      some .typeError ∧
    ∀ (err : Option CbErr) (data : Option Payload),
      okcoinClassify (fun _ => some ParsedJson.jsNull) none "null" ≠
        .delivered err data := by
  refine ⟨rfl, ?_⟩
  intro err data h
  rw [show okcoinClassify (fun _ => some ParsedJson.jsNull) none "null" = .typeError
    from rfl] at h
  exact absurd h (by simp)

/-- C5 as amended: when the callback is a function and the body does not
parse to JSON `null`, the handler delivers exactly the classification,
which carries exactly one of a success payload or an error: the error slot
is `none` precisely when the data slot is not, and vice versa. (At a body
parsed to JSON `null` the handler throws and delivers neither.) -/
theorem C5_exactly_one_outcome (parse : String → Option ParsedJson)
    (error : Option String) (body : String)
    (h : parse body ≠ some .jsNull) :
    okcoinResponseHandler true parse error body =
      some (okcoinClassify parse error body) ∧
    ∃ (err : Option CbErr) (data : Option Payload),
      okcoinClassify parse error body = .delivered err data ∧
      (err = none ↔ ¬data = none) ∧ (data = none ↔ ¬err = none) := by
  refine ⟨rfl, ?_⟩
  cases error with
  | some e =>
    exact ⟨some (.genericError ("Error in server response: " ++ e)), none, rfl,
      by simp, by simp⟩
  | none =>
    cases hp : parse body with
    | none =>
      refine ⟨some (.genericError ("Could not understand response from server: " ++ body)),
        none, ?_, by simp, by simp⟩
      simp [okcoinClassify, hp]
    | some pj =>
      cases pj with
      | jsNull => exact absurd hp h
      | jsValue d =>
        by_cases ht : truthyCode d.error_code
        · refine ⟨some (.apiError (error_code_meaning (d.error_code.getD 0))), none,
            ?_, by simp, by simp⟩
          simp [okcoinClassify, hp, ht]
        · refine ⟨none, some d, ?_, by simp, by simp⟩
          simp [okcoinClassify, hp, ht]

/-- Witness for C5 at a concrete error-free response. -/
theorem C5_witness :
    okcoinResponseHandler true (fun _ => some (.jsValue ⟨none, []⟩)) none "\x7b\x7d" =
      some (okcoinClassify (fun _ => some (.jsValue ⟨none, []⟩)) none "\x7b\x7d") ∧
    ∃ (err : Option CbErr) (data : Option Payload),
      okcoinClassify (fun _ => some (.jsValue ⟨none, []⟩)) none "\x7b\x7d" =
        .delivered err data ∧
      (err = none ↔ ¬data = none) ∧ (data = none ↔ ¬err = none) :=
  C5_exactly_one_outcome (fun _ => some (.jsValue ⟨none, []⟩)) none "\x7b\x7d"
    (by decide)

/-- C9: when the callback argument is not a function, the completion
handler delivers nothing at all, whatever the transport result and body
were. -/
theorem C9_non_function_callback_drops_response (parse : String → Option ParsedJson)
    (error : Option String) (body : String) :
    okcoinResponseHandler false parse error body = none := rfl

/-- C10: keys present in the optional settings object override both the
built-in defaults and the positional `api_key`/`secret` arguments, and a
settings-supplied `api_key` is the one sent with every signed request. -/
theorem C10_settings_precedence (api_key secret : String) (s : Settings)
    (u v k sec : String) (md5 : String → String) (path : String)
    (params : ParameterSet) :
    (s.url = some u → (OKCoin api_key secret (some s)).url = u) ∧
    (s.version = some v → (OKCoin api_key secret (some s)).version = v) ∧
    (s.api_key = some k → (OKCoin api_key secret (some s)).api_key = k) ∧
    (s.secret = some sec → (OKCoin api_key secret (some s)).secret = sec) ∧
    (s.api_key = some k →
      (formOf (privateMethod md5 (OKCoin api_key secret (some s)) path
        params)).lookup "api_key" = some k) := by
  refine ⟨?_, ?_, ?_, ?_, ?_⟩ <;> intro h
  · simp [OKCoin, h]
  · simp [OKCoin, h]
  · simp [OKCoin, h]
  · simp [OKCoin, h]
  · show (setKey (setKey params "api_key" _) "sign" _).lookup "api_key" = _
    rw [lookup_setKey_ne _ _ (by decide), lookup_setKey_self]
    simp [OKCoin, h]

/-- Witness for C10: a settings object supplying all four keys. -/
theorem C10_witness :
    (OKCoin "posK" "posS" (some ⟨some "U", some "V", some "K", some "SEC"⟩)).url = "U" ∧
    (OKCoin "posK" "posS" (some ⟨some "U", some "V", some "K", some "SEC"⟩)).version = "V" ∧
    (OKCoin "posK" "posS" (some ⟨some "U", some "V", some "K", some "SEC"⟩)).api_key = "K" ∧
    (OKCoin "posK" "posS" (some ⟨some "U", some "V", some "K", some "SEC"⟩)).secret = "SEC" ∧
    (formOf (privateMethod (fun s => s)
        (OKCoin "posK" "posS" (some ⟨some "U", some "V", some "K", some "SEC"⟩)) "/p"
        [])).lookup "api_key" = some "K" := by
  obtain ⟨h1, h2, h3, h4, h5⟩ :=
    C10_settings_precedence "posK" "posS" ⟨some "U", some "V", some "K", some "SEC"⟩
      "U" "V" "K" "SEC" (fun s => s) "/p" []
  exact ⟨h1 rfl, h2 rfl, h3 rfl, h4 rfl, h5 rfl⟩

end OKCoinAPI
